import Mathlib

/-!
Verification development for nodejs-seedlink-latencies-proxy.

Shallow embedding of the repository's core data flow:
 * the query engine (`index.js`: `filterLatencies`, `matchArray`,
   `testWildcard`, `convertWildcard`),
 * request validation (`index.js`: `validateParameters`),
 * the refresh orchestrator (`index.js`: `refreshCacheFull`,
   `setLatencyCache`),
 * the record framer and poll socket (`lib/seedlinkInfoSocket.js`:
   `handleData`, `getLatencies`, `finish`),
 * the HTTP read path for latencies (`index.js`:
   `SeedlinkLatencyProxy.prototype.HTTPServer`, the root-path branch).

Strings are modelled as Lean `String`/`List Char`; byte buffers as
`List Nat`; the query object (produced by `querystring.parse`) as an
association list of string pairs with distinct keys.
-/

set_option maxRecDepth 10000

namespace SeedlinkProxy

/-- A latency record as built by `parseRecords` in
`lib/seedlinkInfoSocket.js`: four stream-identifier strings, the ISO end
time, and the signed latency in milliseconds.  The JS object key `end` is
rendered `endTime` (`end` is a Lean keyword). -/
structure LatencyRecord where
  network : String
  station : String
  location : String
  channel : String
  endTime : String
  msLatency : Int
deriving DecidableEq

/-- A configured Seedlink endpoint `{host, port}` from the configuration's
`servers` list. -/
structure ServerEndpoint where
  host : String
  port : Nat
deriving DecidableEq

/-- Query objects produced by `querystring.parse(uri.query)`: an
association list of parameter names to string values (the model assumes
each key occurs at most once, which is how every claim uses it; repeated
URL keys would make `querystring.parse` produce arrays instead of
strings). -/
abbrev QueryObject := List (String × String)

/-- Property access `queryObject[k]` followed by the JS truthiness test
used by `filterLatencies` (`if(queryObject.network) ...`): an absent key
gives `undefined` (falsy) and the only falsy string is the empty
string. -/
def qget (q : QueryObject) (k : String) : Option String :=
  match q.lookup k with
  | some v => if v = "" then none else some v
  | none => none

/-- The JS line terminators, which the regular-expression atom `.` does
not match (`\n`, `\r`, U+2028, U+2029). -/
def isLineTerminator (c : Char) : Bool :=
  c = '\n' || c = '\r' || c = Char.ofNat 0x2028 || c = Char.ofNat 0x2029

/-- One atom of the regular expression produced by `convertWildcard`:
`dot` is the translation of `?` (the regex `.`), `star` the translation of
`*` (the regex `.*`), and `lit c` any other character, taken literally.
This literal reading is faithful exactly for patterns that contain no
regex metacharacter other than the converted `?` and `*`; every pattern
accepted by `validateParameters` (alphanumerics, `-`, `?`, `*`) is of that
shape. -/
inductive RTok where
  | dot : RTok
  | star : RTok
  | lit : Char → RTok
deriving DecidableEq

/-- `convertWildcard` from `index.js`:
`x.replace(/\?/g, ".").replace(/\*/g, ".*")`, i.e. `?` becomes the regex
atom `.` and `*` becomes `.*`; everything else is kept as a literal. -/
def convertWildcard (x : List Char) : List RTok :=
  x.map fun c => if c = '?' then RTok.dot else if c = '*' then RTok.star else RTok.lit c

/-- The suffixes of `s` reachable by deleting a (possibly empty) prefix of
non-line-terminator characters: exactly the remainders the regex atom
`.*` can leave for the rest of the pattern. -/
def starSuffixes : List Char → List (List Char)
  | [] => [[]]
  | c :: cs => (c :: cs) :: (if isLineTerminator c then [] else starSuffixes cs)

/-- Anchored matching of a converted pattern against a string, the
semantics of `new RegExp("^" + pattern + "$").test(code)` in JS: `.`
matches one character that is not a line terminator, `.*` zero or more
such characters, and a literal only itself (no `i` flag is passed, so
matching is case-sensitive). -/
def rmatch : List RTok → List Char → Bool
  | [], s => s.isEmpty
  | RTok.dot :: ps, s =>
    match s with
    | [] => false
    | c :: cs => !isLineTerminator c && rmatch ps cs
  | RTok.lit a :: ps, s =>
    match s with
    | [] => false
    | c :: cs => a == c && rmatch ps cs
  | RTok.star :: ps, s => (starSuffixes s).any fun s2 => rmatch ps s2

/-- `testWildcard(code, x)` from `index.js`:
`new RegExp("^" + convertWildcard(x) + "$").test(code)`. -/
def testWildcard (code : String) (x : String) : Bool :=
  rmatch (convertWildcard x.data) code.data

/-- `matchArray(code, values)` from `index.js`: the **number** of supplied
patterns that match the code,
`values.filter(x => testWildcard(code, x)).length`. -/
def matchArray (code : String) (values : List String) : Nat :=
  (values.filter fun x => testWildcard code x).length

/-- JS `value.split(",")` on characters: splits at **every** comma, and
the empty string yields `[""]` (one empty piece); the result is never
empty.  (Lean's own `String.splitOn` has the same behaviour for this
separator but does not reduce in the kernel, so the split is defined
structurally here.) -/
def splitComma : List Char → List (List Char)
  | [] => [[]]
  | ',' :: cs => [] :: splitComma cs
  | c :: cs =>
    match splitComma cs with
    | [] => [[c]]
    | t :: ts => (c :: t) :: ts

/-- String wrapper of `splitComma`, the model of `v.split(",")`. -/
def splitOnCommaStr (s : String) : List String :=
  (splitComma s.data).map String.mk

/-- The location-pattern rewrite `x.replace("--", "")` applied in
`filterLatencies`: JS `String.replace` with a string argument removes only
the first occurrence of `--`. -/
def stripFirstDashDash : List Char → List Char
  | '-' :: '-' :: rest => rest
  | c :: rest => c :: stripFirstDashDash rest
  | [] => []

/-- String wrapper of `stripFirstDashDash`. -/
def stripLocPat (s : String) : String :=
  String.mk (stripFirstDashDash s.data)

/-- Decimal-fragment model of JS `Number(value)` restricted to integer
results: the whitespace-trimmed empty string coerces to `0`, an optional
sign followed by decimal digits to the signed value; all other numeric
spellings JS would accept (fractions, exponents, hex) are outside the
fragment and modelled as `none` (as are the strings JS maps to `NaN`).
Every theorem that touches a numeric bound stays inside this fragment. -/
def jsNumberInt (s : String) : Option Int :=
  let isSpace : Char → Bool := fun c => c = ' ' || c = '\t' || c = '\n' || c = '\r'
  let t := ((s.data.dropWhile isSpace).reverse.dropWhile isSpace).reverse
  let digits : List Char → Option Nat := fun ds =>
    if ds.isEmpty then none
    else if ds.all Char.isDigit then
      some (ds.foldl (fun acc c => 10 * acc + (c.toNat - 48)) 0)
    else none
  match t with
  | [] => some 0
  | '-' :: ds => (digits ds).map fun n => -(n : Int)
  | '+' :: ds => (digits ds).map fun n => (n : Int)
  | ds => (digits ds).map fun n => (n : Int)

/-- The comparison `Number(queryObject.min) <= latency.msLatency` from
`filterLatencies` (a comparison against `NaN` is false). -/
def minBoundHolds (v : String) (lat : Int) : Bool :=
  match jsNumberInt v with
  | some m => m ≤ lat
  | none => false

/-- The comparison `latency.msLatency <= Number(queryObject.max)` from
`filterLatencies`. -/
def maxBoundHolds (v : String) (lat : Int) : Bool :=
  match jsNumberInt v with
  | some m => lat ≤ m
  | none => false

/-- Coercion of a JS boolean operand of `&=` to a number. -/
def boolToNat (b : Bool) : Nat := if b then 1 else 0

/-- One guarded accumulation step `if(bool && opt) bool &= c` of
`filterLatencies`: when the running value is still truthy and the
constraint is supplied, the match count (or coerced comparison result) is
combined with JS bitwise AND `&`. -/
def guardStep (b : Nat) (f : Option Nat) : Nat :=
  if b ≠ 0 then
    match f with
    | some c => b &&& c
    | none => b
  else b

/-- The predicate body of `this.cachedLatencies.filter(...)` in
`filterLatencies` (`index.js` lines 248-276): `var bool = true` then for
each supplied constraint `bool &= matchArray(...)` (bitwise AND with the
match **count**), for the bounds `bool &= <comparison>`, and the record is
kept when the final value is truthy.  Location patterns first have their
first `--` removed. -/
def latencyFilterBool (q : QueryObject) (r : LatencyRecord) : Bool :=
  let b0 : Nat := 1
  let b1 :=
    match qget q "network" with
    | some v => b0 &&& matchArray r.network (splitOnCommaStr v)
    | none => b0
  let b2 := guardStep b1 ((qget q "station").map fun v =>
    matchArray r.station (splitOnCommaStr v))
  let b3 := guardStep b2 ((qget q "location").map fun v =>
    matchArray r.location ((splitOnCommaStr v).map stripLocPat))
  let b4 := guardStep b3 ((qget q "channel").map fun v =>
    matchArray r.channel (splitOnCommaStr v))
  let b5 := guardStep b4 ((qget q "min").map fun v =>
    boolToNat (minBoundHolds v r.msLatency))
  let b6 := guardStep b5 ((qget q "max").map fun v =>
    boolToNat (maxBoundHolds v r.msLatency))
  b6 != 0

/-- `SeedlinkLatencyProxy.prototype.filterLatencies` (`index.js` lines
203-278): with no query keys at all the cached list is returned as is,
otherwise it is filtered by `latencyFilterBool`. -/
def filterLatencies (cache : List LatencyRecord) (q : QueryObject) : List LatencyRecord :=
  if q.isEmpty then cache
  else cache.filter fun r => latencyFilterBool q r

/-- The character class `[0-9a-z?*]` of the validation regexes together
with the `i` flag (so uppercase ASCII letters are included). -/
def isAlnumWildcardChar (c : Char) : Bool :=
  ('0' ≤ c && c ≤ '9') || ('a' ≤ c && c ≤ 'z') || ('A' ≤ c && c ≤ 'Z')
    || c = '?' || c = '*'

/-- The character class `[0-9a-z-?*]` of `LOCATION_REGEXP` (with the `i`
flag): the location alphabet additionally admits the hyphen. -/
def isLocationChar (c : Char) : Bool :=
  isAlnumWildcardChar c || c = '-'

/-- Model of the validation regexes, which all have the shape
`^(T,){0,}T$` for a token `T = [class]{1,maxLen}`: the value must be a
nonempty comma-separated list of tokens of 1 to `maxLen` characters from
the class.  Since tokens cannot contain commas, the comma split is
the unique decomposition the regex can take, so the regex accepts exactly
when every piece of the split is such a token (`splitOn` never returns an
empty list, and an empty piece fails the length bound). -/
def isTokenListOf (cls : Char → Bool) (maxLen : Nat) (s : String) : Bool :=
  (splitOnCommaStr s).all fun t => 1 ≤ t.length && t.length ≤ maxLen && t.data.all cls

/-- `isValidParameter(key, value)` from `validateParameters` in
`index.js`: the four identifier fields are tested with their regexes
(lengths 2, 5, 2, 3; location also allows `-`), `min`/`max` with
`Number(value) % 1 === 0` (true exactly when the value coerces to an
integer; modelled by `jsNumberInt`).  A key outside the switch returns
`undefined`, which the caller treats as invalid (modelled `false`). -/
def isValidParameter (key : String) (value : String) : Bool :=
  if key = "network" then isTokenListOf isAlnumWildcardChar 2 value
  else if key = "station" then isTokenListOf isAlnumWildcardChar 5 value
  else if key = "location" then isTokenListOf isLocationChar 2 value
  else if key = "channel" then isTokenListOf isAlnumWildcardChar 3 value
  else if key = "min" || key = "max" then (jsNumberInt value).isSome
  else false

/-- The `ALLOWED_PARAMETERS` array from `validateParameters`. -/
def allowedParameters : List String :=
  ["network", "station", "location", "channel", "min", "max"]

/-- `validateParameters(queryObject)` from `index.js` as a predicate:
`true` iff no exception is thrown, i.e. every key is allowed and every
key/value pair passes `isValidParameter`. -/
def validateParameters (q : QueryObject) : Bool :=
  (q.all fun kv => allowedParameters.contains kv.fst) &&
  (q.all fun kv => isValidParameter kv.fst kv.snd)

/-! ### Characterisation of the filter predicate -/

/-- A constraint holds "when supplied": trivially true for an absent (or
empty, hence falsy) parameter. -/
def whenSupplied (o : Option String) (P : String → Prop) : Prop :=
  match o with
  | some v => P v
  | none => True

instance {P : String → Prop} [DecidablePred P] :
    (o : Option String) → Decidable (whenSupplied o P)
  | some v => inferInstanceAs (Decidable (P v))
  | none => Decidable.isTrue trivial

/-- An odd number of the supplied patterns match the stored value. -/
def patCountOdd (value : String) (pats : List String) : Prop :=
  (pats.countP fun p => testWildcard value p) % 2 = 1

instance (value : String) (pats : List String) : Decidable (patCountOdd value pats) :=
  inferInstanceAs (Decidable (_ = 1))

/-- What `filterLatencies` actually keeps: for each supplied identifier
field the **number** of comma-separated patterns matching the record's
value (case-sensitively, with the first `--` stripped from each location
pattern) is odd, and each supplied bound comparison holds.  This is the
corrected form of claim C1: the JS `&=` combines the match count with
bitwise AND, so only the count's lowest bit survives. -/
def oddCountIncluded (q : QueryObject) (r : LatencyRecord) : Prop :=
  whenSupplied (qget q "network") (fun v => patCountOdd r.network (splitOnCommaStr v)) ∧
  whenSupplied (qget q "station") (fun v => patCountOdd r.station (splitOnCommaStr v)) ∧
  whenSupplied (qget q "location")
    (fun v => patCountOdd r.location ((splitOnCommaStr v).map stripLocPat)) ∧
  whenSupplied (qget q "channel") (fun v => patCountOdd r.channel (splitOnCommaStr v)) ∧
  whenSupplied (qget q "min") (fun v => minBoundHolds v r.msLatency = true) ∧
  whenSupplied (qget q "max") (fun v => maxBoundHolds v r.msLatency = true)

/-- The constraint a `guardStep` contribution imposes on the surviving
bit: an absent contribution imposes nothing, a present one must have an
odd value. -/
def optOdd : Option Nat → Prop
  | some c => c % 2 = 1
  | none => True

lemma one_land_eq (c : Nat) : 1 &&& c = c % 2 := by
  rw [Nat.land_comm]
  exact Nat.and_one_is_mod c

lemma guardStep_le_one {b : Nat} (hb : b ≤ 1) (f : Option Nat) :
    guardStep b f ≤ 1 := by
  unfold guardStep
  split
  · rename_i h
    have hb1 : b = 1 := by omega
    subst hb1
    cases f with
    | some c =>
      show 1 &&& c ≤ 1
      rw [one_land_eq]
      omega
    | none => exact le_refl 1
  · exact hb

lemma guardStep_ne_zero {b : Nat} (hb : b ≤ 1) (f : Option Nat) :
    guardStep b f ≠ 0 ↔ (b ≠ 0 ∧ optOdd f) := by
  unfold guardStep
  split
  · rename_i h
    have hb1 : b = 1 := by omega
    subst hb1
    cases f with
    | some c =>
      show 1 &&& c ≠ 0 ↔ (1 ≠ 0 ∧ optOdd (some c))
      rw [one_land_eq]
      simp only [optOdd]
      omega
    | none =>
      show (1 : Nat) ≠ 0 ↔ (1 ≠ 0 ∧ optOdd none)
      simp [optOdd]
  · rename_i h
    have hb0 : b = 0 := by omega
    subst hb0
    simp [optOdd]

lemma optOdd_map_count (o : Option String) (g : String → Nat) :
    optOdd (o.map g) ↔ whenSupplied o (fun v => (g v) % 2 = 1) := by
  cases o <;> simp [optOdd, whenSupplied]

lemma boolToNat_mod_two (b : Bool) : (boolToNat b % 2 = 1) ↔ b = true := by
  cases b <;> simp [boolToNat]

lemma patCountOdd_iff (value : String) (pats : List String) :
    patCountOdd value pats ↔ matchArray value pats % 2 = 1 := by
  unfold patCountOdd matchArray
  rw [List.countP_eq_length_filter]

/-- The filter predicate of `filterLatencies` keeps a record exactly when
every supplied field has an odd match count and every supplied bound
holds. -/
theorem latencyFilterBool_eq_true_iff (q : QueryObject) (r : LatencyRecord) :
    latencyFilterBool q r = true ↔ oddCountIncluded q r := by
  unfold latencyFilterBool
  simp only [bne_iff_ne, ne_eq]
  have hb1 : (match qget q "network" with
      | some v => 1 &&& matchArray r.network (splitOnCommaStr v)
      | none => 1) = guardStep 1 ((qget q "network").map fun v =>
        matchArray r.network (splitOnCommaStr v)) := by
    cases hqn : qget q "network" <;> simp [guardStep]
  rw [hb1]
  have l1 := guardStep_le_one (le_refl 1)
    ((qget q "network").map fun v => matchArray r.network (splitOnCommaStr v))
  have l2 := guardStep_le_one l1
    ((qget q "station").map fun v => matchArray r.station (splitOnCommaStr v))
  have l3 := guardStep_le_one l2
    ((qget q "location").map fun v => matchArray r.location ((splitOnCommaStr v).map stripLocPat))
  have l4 := guardStep_le_one l3
    ((qget q "channel").map fun v => matchArray r.channel (splitOnCommaStr v))
  have l5 := guardStep_le_one l4
    ((qget q "min").map fun v => boolToNat (minBoundHolds v r.msLatency))
  rw [← ne_eq]
  rw [guardStep_ne_zero l5, guardStep_ne_zero l4, guardStep_ne_zero l3,
    guardStep_ne_zero l2, guardStep_ne_zero l1,
    guardStep_ne_zero (le_refl 1)]
  simp only [optOdd_map_count, oddCountIncluded, patCountOdd_iff, boolToNat_mod_two]
  constructor
  · rintro ⟨⟨⟨⟨⟨⟨-, h1⟩, h2⟩, h3⟩, h4⟩, h5⟩, h6⟩
    exact ⟨h1, h2, h3, h4, h5, h6⟩
  · rintro ⟨h1, h2, h3, h4, h5, h6⟩
    exact ⟨⟨⟨⟨⟨⟨one_ne_zero, h1⟩, h2⟩, h3⟩, h4⟩, h5⟩, h6⟩

lemma qget_nil (k : String) : qget [] k = none := rfl

lemma oddCountIncluded_nil (r : LatencyRecord) : oddCountIncluded [] r := by
  refine ⟨?_, ?_, ?_, ?_, ?_, ?_⟩ <;> simp [qget_nil, whenSupplied]

/-! ### Claims C1 and C4 -/

/-- Case-insensitive anchored wildcard matching, the matching relation the
spec's words describe ("case-insensitively matches"): both the stored
value and the pattern are folded to lower case first.  ASCII fold, as the
validated pattern alphabet is ASCII. -/
def lowerStr (s : String) : String :=
  String.mk (s.data.map fun c => if 'A' ≤ c && c ≤ 'Z' then Char.ofNat (c.toNat + 32) else c)

/-- Case-insensitive anchored wildcard match of one pattern. -/
def ciMatches (code : String) (p : String) : Bool :=
  testWildcard (lowerStr code) (lowerStr p)

/-- Following the words of claim C1 (and spec sections 4.5 and 8): a
record satisfies the query exactly when, independently for each identifier
field with supplied patterns, the value case-insensitively matches **at
least one** comma-separated pattern (locations compared after stripping
`--` from both sides), and each supplied bound comparison holds. -/
def claimIncluded (q : QueryObject) (r : LatencyRecord) : Prop :=
  whenSupplied (qget q "network")
    (fun v => ∃ p ∈ splitOnCommaStr v, ciMatches r.network p = true) ∧
  whenSupplied (qget q "station")
    (fun v => ∃ p ∈ splitOnCommaStr v, ciMatches r.station p = true) ∧
  whenSupplied (qget q "location")
    (fun v => ∃ p ∈ splitOnCommaStr v, ciMatches (stripLocPat r.location) (stripLocPat p) = true) ∧
  whenSupplied (qget q "channel")
    (fun v => ∃ p ∈ splitOnCommaStr v, ciMatches r.channel p = true) ∧
  whenSupplied (qget q "min")
    (fun v => ((jsNumberInt v).all fun m => decide (m ≤ r.msLatency)) = true) ∧
  whenSupplied (qget q "max")
    (fun v => ((jsNumberInt v).all fun m => decide (r.msLatency ≤ m)) = true)

/-- A record of the shape the service caches (the README's example
record). -/
def cexC1Record : LatencyRecord :=
  { network := "GE", station := "MARCO", location := "", channel := "HHZ",
    endTime := "2018-07-06T12:44:49.970Z", msLatency := 3542 }

/-- A query whose network constraint `GE,G?` is valid and is matched twice
over by the stored network code `GE`. -/
def cexC1Query : QueryObject := [("network", "GE,G?")]

/-- C1 counterexample.  The valid query `network=GE,G?` satisfies the
claim's inclusion condition for the record with network `GE` (the value
matches both patterns, so certainly at least one), yet `filterLatencies`
returns the empty list: the JS accumulator `bool &= matchArray(...)`
bitwise-ANDs the running value `1` with the match count `2`, giving `0`.
So inclusion is not "matches at least one pattern per supplied field and
bounds hold". -/
theorem claim_C1_counterexample :
    validateParameters cexC1Query = true ∧
    claimIncluded cexC1Query cexC1Record ∧
    filterLatencies [cexC1Record] cexC1Query = [] := by
  refine ⟨by decide, ?_, by decide⟩
  refine ⟨?_, ?_, ?_, ?_, ?_, ?_⟩ <;> decide

/-- C1 as amended: a record is returned by `filterLatencies` exactly when
it is in the cache and, for each identifier field with supplied patterns,
the **number** of comma-separated patterns matching the record's value
(case-sensitively; location patterns with their first `--` stripped) is
**odd**, and each supplied min (resp. max) bound, read as a JS number,
is `≤` (resp. `≥`) the record's `msLatency`. -/
theorem claim_C1_amended (cache : List LatencyRecord) (q : QueryObject) (r : LatencyRecord) :
    r ∈ filterLatencies cache q ↔ (r ∈ cache ∧ oddCountIncluded q r) := by
  unfold filterLatencies
  by_cases hq : q.isEmpty
  · have hqnil : q = [] := List.isEmpty_iff.mp hq
    subst hqnil
    simp [oddCountIncluded_nil r]
  · rw [if_neg hq, List.mem_filter, latencyFilterBool_eq_true_iff]

/-- C4: a query object with no keys (no field patterns, no bounds) makes
`filterLatencies` return the cached snapshot itself, order untouched. -/
theorem claim_C4_empty_query (cache : List LatencyRecord) :
    filterLatencies cache [] = cache := rfl

/-! ### Claims C2 and C9: wildcard matching semantics -/

/-- A pattern without wildcard characters converts to a list of literals
and matches exactly the identical character string. -/
lemma rmatch_lit_list (p : List Char) (hp : ∀ c ∈ p, c ≠ '?' ∧ c ≠ '*') :
    ∀ s : List Char, (rmatch (convertWildcard p) s = true ↔ s = p) := by
  induction p with
  | nil =>
    intro s
    cases s <;> simp [convertWildcard, rmatch]
  | cons c cs ih =>
    intro s
    have hc := hp c (List.mem_cons_self c cs)
    have hcs : ∀ x ∈ cs, x ≠ '?' ∧ x ≠ '*' := fun x hx => hp x (List.mem_cons_of_mem c hx)
    have hcw : convertWildcard (c :: cs) = RTok.lit c :: convertWildcard cs := by
      simp [convertWildcard, hc.1, hc.2]
    cases s with
    | nil =>
      rw [hcw]
      simp [rmatch]
    | cons d ds =>
      rw [hcw]
      show (c == d && rmatch (convertWildcard cs) ds) = true ↔ d :: ds = c :: cs
      rw [Bool.and_eq_true, beq_iff_eq, ih hcs ds]
      constructor
      · rintro ⟨rfl, rfl⟩
        rfl
      · intro h
        injection h with h1 h2
        exact ⟨h1.symm, h2⟩

/-- C2 counterexample.  `testWildcard` compiles the pattern with
`new RegExp("^" + ... + "$")` and no `i` flag, so the claim's own example
fails: pattern `ge` does **not** match the stored value `GE`, although
after folding both to a common case it does match — matching is not
invariant under case folding. -/
theorem claim_C2_counterexample :
    testWildcard "GE" "ge" = false ∧
    testWildcard (lowerStr "GE") (lowerStr "ge") = true := by
  decide

/-- C2 as amended: matching is case-**sensitive**.  A validated pattern
with no wildcard characters matches exactly the character-for-character
identical value, so any value differing from the pattern only in letter
case does not match. -/
theorem claim_C2_amended (v p : String)
    (hwild : ∀ c ∈ p.data, c ≠ '?' ∧ c ≠ '*') :
    testWildcard v p = true ↔ v = p := by
  unfold testWildcard
  rw [rmatch_lit_list p.data hwild v.data]
  constructor
  · intro h
    exact String.ext h
  · intro h
    rw [h]

/-- Witness for the amended C2 at a concrete input: the pattern `ge` is
wildcard-free, and the theorem forces `testWildcard "GE" "ge" = false`
because `"GE" ≠ "ge"`. -/
theorem claim_C2_amended_witness :
    (∀ c ∈ "ge".data, c ≠ '?' ∧ c ≠ '*') ∧ testWildcard "GE" "ge" = false := by
  refine ⟨by decide, ?_⟩
  have h := claim_C2_amended "GE" "ge" (by decide)
  cases htw : testWildcard "GE" "ge" with
  | false => rfl
  | true => exact absurd (h.mp htw) (by decide)

/-- C9 counterexample.  The JS regex atom `.` does not match line
terminators, so `*` (compiled to `.*`) does not match every string and `?`
(compiled to `.`) does not match every single character: both fail on a
newline. -/
theorem claim_C9_counterexample :
    testWildcard "a\nb" "*" = false ∧ testWildcard "G\n" "G?" = false := by
  decide

/-- The star pattern alone matches exactly the strings free of line
terminators. -/
lemma rmatch_star_all (s : List Char) :
    rmatch [RTok.star] s = s.all fun c => !isLineTerminator c := by
  induction s with
  | nil => decide
  | cons c cs ih =>
    show (starSuffixes (c :: cs)).any (fun s2 => rmatch [] s2) = _
    cases hterm : isLineTerminator c with
    | false =>
      simp only [starSuffixes, hterm, if_false, List.any_cons, rmatch, List.all_cons,
        Bool.not_false, Bool.true_and, List.isEmpty_cons, Bool.false_or]
      rw [← ih]
      simp [rmatch]
    | true =>
      simp [starSuffixes, hterm, rmatch]

/-- C9 as amended: matches are anchored (pattern `GE` matches only the
value `GE`); `?` matches exactly one character, provided it is not a line
terminator (`G?` matches exactly the two-character values `G·` with a
non-line-terminator second character, so `GE` and `GX` but not `G12`);
`*` matches exactly the strings containing no line terminator (not every
string). -/
theorem claim_C9_amended :
    (∀ v : String, testWildcard v "GE" = true ↔ v = "GE") ∧
    (∀ v : String, testWildcard v "G?" = true ↔
      ∃ c, isLineTerminator c = false ∧ v.data = ['G', c]) ∧
    (testWildcard "GE" "G?" = true ∧ testWildcard "GX" "G?" = true ∧
      testWildcard "G12" "G?" = false) ∧
    (∀ v : String, testWildcard v "*" = true ↔
      (v.data.all fun c => !isLineTerminator c) = true) := by
  refine ⟨?_, ?_, by decide, ?_⟩
  · intro v
    unfold testWildcard
    rw [rmatch_lit_list "GE".data (by decide) v.data]
    constructor
    · intro h
      exact String.ext h
    · intro h
      rw [h]
  · intro v
    unfold testWildcard
    rw [show convertWildcard "G?".data = [RTok.lit 'G', RTok.dot] from by decide]
    cases hv : v.data with
    | nil => simp [rmatch]
    | cons d ds =>
      cases ds with
      | nil =>
        show (('G' == d) && rmatch [RTok.dot] []) = true ↔ _
        simp [rmatch]
      | cons e es =>
        show (('G' == d) && (!isLineTerminator e && rmatch [] es)) = true ↔ _
        cases es with
        | nil =>
          simp only [rmatch, List.isEmpty_nil, Bool.and_true, Bool.and_eq_true,
            beq_iff_eq, Bool.not_eq_true']
          constructor
          · rintro ⟨rfl, he⟩
            exact ⟨e, he, rfl⟩
          · rintro ⟨c, hc, hlist⟩
            injection hlist with h1 h2
            injection h2 with h2 h3
            exact ⟨h1.symm, h2 ▸ hc⟩
        | cons f fs =>
          simp [rmatch]
  · intro v
    unfold testWildcard
    rw [show convertWildcard "*".data = [RTok.star] from by decide]
    rw [rmatch_star_all]

/-! ### Claim C8: request validation -/

/-- A comma-separated list of tokens of 1 to `maxLen` characters drawn
from the class `cls` (the Prop-level reading of the token-list grammar). -/
abbrev tokenListOk (cls : Char → Bool) (maxLen : Nat) (s : String) : Prop :=
  ∀ t ∈ splitOnCommaStr s, 1 ≤ t.length ∧ t.length ≤ maxLen ∧ ∀ c ∈ t.data, cls c = true

/-- A plain decimal integer string: digits, optionally preceded by a
single minus sign (the literal reading of the claim's "an integer"). -/
abbrev isDecIntStr (s : String) : Prop :=
  s.data ≠ [] ∧
    ((∀ c ∈ s.data, c.isDigit = true) ∨
      (s.data.head? = some '-' ∧ s.data.tail ≠ [] ∧ ∀ c ∈ s.data.tail, c.isDigit = true))

/-- Following the words of claim C8 for one parameter: identifier-field
values are comma-separated lists of alphanumeric-plus-wildcard tokens
within the per-field maximum length (network 2, station 5, location 2,
channel 3), and bounds are integers. -/
abbrev claimParamOk (key value : String) : Prop :=
  (key = "network" → tokenListOk isAlnumWildcardChar 2 value) ∧
  (key = "station" → tokenListOk isAlnumWildcardChar 5 value) ∧
  (key = "location" → tokenListOk isAlnumWildcardChar 2 value) ∧
  (key = "channel" → tokenListOk isAlnumWildcardChar 3 value) ∧
  ((key = "min" ∨ key = "max") → isDecIntStr value)

/-- Following the words of claim C8: validation succeeds exactly when
every parameter is supported and every supplied value satisfies its
field's grammar. -/
abbrev claimValidQuery (q : QueryObject) : Prop :=
  (∀ kv ∈ q, kv.fst ∈ allowedParameters) ∧ ∀ kv ∈ q, claimParamOk kv.fst kv.snd

instance (k v : String) : Decidable (claimParamOk k v) := inferInstance

instance (q : QueryObject) : Decidable (claimValidQuery q) :=
  instDecidableAnd

/-- C8 counterexample.  Two valid-per-the-code queries the claim says must
be rejected: `location=--` (the location regex class is `[0-9a-z-?*]`,
which admits the hyphen, while the claim's grammar is alphanumeric plus
wildcards only) and `min=` (the empty string coerces to the number `0`,
and `0 % 1 === 0`, while the claim's "an integer" it is not). -/
theorem claim_C8_counterexample :
    (validateParameters [("location", "--")] = true ∧
      ¬ claimValidQuery [("location", "--")]) ∧
    (validateParameters [("min", "")] = true ∧
      ¬ claimValidQuery [("min", "")]) := by
  constructor
  · exact ⟨by decide, by decide⟩
  · exact ⟨by decide, by decide⟩

/-- C8 as amended, per parameter: as the claim says, except that location
tokens are drawn from the alphabet alphanumeric + wildcards + hyphen, and
a bound is accepted exactly when it coerces to an integer under JS
`Number` (which also accepts, e.g., the empty string as `0`; modelled by
`jsNumberInt`). -/
abbrev amendedParamOk (key value : String) : Prop :=
  (key = "network" → tokenListOk isAlnumWildcardChar 2 value) ∧
  (key = "station" → tokenListOk isAlnumWildcardChar 5 value) ∧
  (key = "location" → tokenListOk isLocationChar 2 value) ∧
  (key = "channel" → tokenListOk isAlnumWildcardChar 3 value) ∧
  ((key = "min" ∨ key = "max") → (jsNumberInt value).isSome = true)

/-- C8 as amended: validation succeeds exactly when every parameter is
supported and every value satisfies the (corrected) per-field grammar. -/
abbrev amendedValidQuery (q : QueryObject) : Prop :=
  (∀ kv ∈ q, kv.fst ∈ allowedParameters) ∧ ∀ kv ∈ q, amendedParamOk kv.fst kv.snd

lemma isTokenListOf_iff (cls : Char → Bool) (maxLen : Nat) (s : String) :
    isTokenListOf cls maxLen s = true ↔ tokenListOk cls maxLen s := by
  unfold isTokenListOf tokenListOk
  rw [List.all_eq_true]
  refine forall_congr' fun t => imp_congr Iff.rfl ?_
  simp [Bool.and_eq_true, List.all_eq_true, and_assoc]

lemma isValidParameter_iff (k v : String) (hk : k ∈ allowedParameters) :
    isValidParameter k v = true ↔ amendedParamOk k v := by
  fin_cases hk <;>
    simp +decide [isValidParameter, amendedParamOk, isTokenListOf_iff]

/-- C8 as amended (see `amendedParamOk`): `validateParameters` accepts a
query exactly when every parameter is supported, every identifier value is
a comma-separated token list within its per-field length over its alphabet
(location's alphabet including `-`), and every bound coerces to an integer
under JS `Number`. -/
theorem claim_C8_amended (q : QueryObject) :
    validateParameters q = true ↔ amendedValidQuery q := by
  unfold validateParameters amendedValidQuery
  rw [Bool.and_eq_true, List.all_eq_true, List.all_eq_true]
  constructor
  · rintro ⟨h1, h2⟩
    have hmem : ∀ kv ∈ q, kv.fst ∈ allowedParameters := fun kv hkv =>
      List.elem_iff.mp (h1 kv hkv)
    exact ⟨hmem, fun kv hkv =>
      (isValidParameter_iff kv.fst kv.snd (hmem kv hkv)).mp (h2 kv hkv)⟩
  · rintro ⟨h1, h2⟩
    exact ⟨fun kv hkv => List.elem_iff.mpr (h1 kv hkv), fun kv hkv =>
      (isValidParameter_iff kv.fst kv.snd (h1 kv hkv)).mpr (h2 kv hkv)⟩

/-! ### Claims C5 and C10: the refresh orchestrator -/

/-- The state `setLatencyCache` leaves behind: the value written to
`this.cachedLatencies` and the fact that the next cycle was queued
(`setTimeout(this.refreshCacheFull..., REFRESH_INTERVAL)` runs
unconditionally). -/
structure CacheState where
  cachedLatencies : List LatencyRecord
  scheduledNext : Bool
deriving DecidableEq

/-- The ordering induced by the comparator
`sortLatencies(a, b) = a.msLatency - b.msLatency` (ascending latency). -/
def sortLatenciesLe (a b : LatencyRecord) : Bool := a.msLatency ≤ b.msLatency

/-- `SeedlinkLatencyProxy.prototype.setLatencyCache`: when `__SORT__` is
configured the list is sorted ascending by `msLatency` (JS `Array.sort`
modelled by `mergeSort` with the comparator's ordering; every property
proved about the sorted case uses only that sorting permutes), the cache
reference is overwritten, and the next refresh is always scheduled. -/
def setLatencyCache (sortCfg : Bool) (latencies : List LatencyRecord) : CacheState :=
  { cachedLatencies := if sortCfg then latencies.mergeSort sortLatenciesLe else latencies
    scheduledNext := true }

/-- The callback-chained `next()` loop of
`SeedlinkLatencyProxy.prototype.refreshCacheFull`: while the working copy
of the server list is nonempty, `pop()` the **last** endpoint, poll it
(`f` gives the poll's outcome: `some result` for `callback(null, result)`,
`none` for an error), extend the accumulator only on success
(`latencies = latencies.concat(result)`), and recurse; with no servers
left, hand the accumulator to `setLatencyCache`. -/
def popLoop (f : ServerEndpoint → Option (List LatencyRecord)) :
    (ss : List ServerEndpoint) → List LatencyRecord → List LatencyRecord
  | [], latencies => latencies
  | s0 :: ss, latencies =>
    let server := (s0 :: ss).getLast (List.cons_ne_nil s0 ss)
    let rest := (s0 :: ss).dropLast
    match f server with
    | some result => popLoop f rest (latencies ++ result)
    | none => popLoop f rest latencies
termination_by ss => ss.length
decreasing_by
  all_goals simp [rest, List.length_dropLast]

/-- One full refresh cycle: `refreshCacheFull` drains the copied server
list and then `setLatencyCache` publishes the merged result and schedules
the next cycle. -/
def refreshCacheFull (sortCfg : Bool) (servers : List ServerEndpoint)
    (f : ServerEndpoint → Option (List LatencyRecord)) : CacheState :=
  setLatencyCache sortCfg (popLoop f servers [])

lemma popLoop_concat (f : ServerEndpoint → Option (List LatencyRecord))
    (ss : List ServerEndpoint) (a : ServerEndpoint) (acc : List LatencyRecord) :
    popLoop f (ss ++ [a]) acc =
      match f a with
      | some result => popLoop f ss (acc ++ result)
      | none => popLoop f ss acc := by
  cases ss with
  | nil =>
    show popLoop f [a] acc = _
    rw [popLoop]
    cases hfa : f a <;> simp [popLoop, hfa]
  | cons s0 ss1 =>
    show popLoop f (s0 :: (ss1 ++ [a])) acc = _
    rw [popLoop]
    have h1 : (s0 :: (ss1 ++ [a])).getLast (List.cons_ne_nil s0 (ss1 ++ [a])) = a :=
      List.getLast_concat (s0 :: ss1)
    have h2 : (s0 :: (ss1 ++ [a])).dropLast = s0 :: ss1 :=
      (List.dropLast_concat : ((s0 :: ss1) ++ [a]).dropLast = _)
    simp only [h1, h2]

/-- Draining the server list merges, in pop (reverse-configured) order,
exactly the successful results; a failed endpoint contributes the empty
list and the loop continues past it. -/
lemma popLoop_eq_join (f : ServerEndpoint → Option (List LatencyRecord))
    (ss : List ServerEndpoint) :
    ∀ acc, popLoop f ss acc = acc ++ ((ss.reverse.map fun s => (f s).getD []).flatten) := by
  induction ss using List.reverseRecOn with
  | nil =>
    intro acc
    simp [popLoop]
  | append_singleton ss1 a ih =>
    intro acc
    rw [popLoop_concat]
    cases hfa : f a with
    | some result => simp [ih, hfa]
    | none => simp [ih, hfa]

/-- C5: for every success/failure assignment to one cycle's endpoint
polls, the published snapshot consists exactly of the records of the
successful polls (a permutation of their concatenation in general, the
concatenation itself when sorting is off — a failing endpoint contributes
nothing and aborts nothing), and the next cycle is scheduled no matter
which endpoints failed. -/
theorem claim_C5_refresh_cycle (sortCfg : Bool) (servers : List ServerEndpoint)
    (f : ServerEndpoint → Option (List LatencyRecord)) :
    ((refreshCacheFull sortCfg servers f).cachedLatencies).Perm
      ((servers.reverse.map fun s => (f s).getD []).flatten) ∧
    (refreshCacheFull false servers f).cachedLatencies =
      ((servers.reverse.map fun s => (f s).getD []).flatten) ∧
    (refreshCacheFull sortCfg servers f).scheduledNext = true := by
  unfold refreshCacheFull setLatencyCache
  refine ⟨?_, ?_, rfl⟩
  · rw [popLoop_eq_join]
    simp only [List.nil_append]
    cases sortCfg with
    | false => simp
    | true => simpa using List.mergeSort_perm _ sortLatenciesLe
  · rw [popLoop_eq_join]
    simp

/-- C10: the endpoints are drained one at a time by `pop()` from the end
of the copied configuration list, so when every poll succeeds the merged
list is the concatenation of the per-endpoint results in reverse
configured order. -/
theorem claim_C10_pop_reverse_order (servers : List ServerEndpoint)
    (results : ServerEndpoint → List LatencyRecord) :
    popLoop (fun s => some (results s)) servers [] =
      (servers.reverse.map results).flatten ∧
    (refreshCacheFull false servers fun s => some (results s)).cachedLatencies =
      (servers.reverse.map results).flatten := by
  constructor
  · rw [popLoop_eq_join]
    simp
  · unfold refreshCacheFull setLatencyCache
    rw [popLoop_eq_join]
    simp

/-! ### Claim C3: the initial snapshot and the read interface -/

/-- The outcome the root-path branch of `HTTPServer` writes for a latency
request. -/
inductive HttpOutcome where
  | serviceClosed : HttpOutcome
  | noContent : HttpOutcome
  | badRequest : HttpOutcome
  | ok : List LatencyRecord → HttpOutcome
deriving DecidableEq

/-- The snapshot before any refresh has run:
`this.cachedLatencies = new Array()` (`index.js` line 39), an ordinary
empty array. -/
def initialCachedLatencies : List LatencyRecord := []

/-- The root-path read branch of `HTTPServer` (`index.js` lines 100-132):
503 when the service is closed, `204 No Content` when the cache array is
empty, 400 on invalid parameters, `204` again when the filtered result is
empty, otherwise `200` with the filtered records. -/
def latencyRequestOutcome (closed : Bool) (cache : List LatencyRecord)
    (q : QueryObject) : HttpOutcome :=
  if closed then HttpOutcome.serviceClosed
  else if cache.length = 0 then HttpOutcome.noContent
  else if !(validateParameters q) then HttpOutcome.badRequest
  else
    let requested := filterLatencies cache q
    if requested.length = 0 then HttpOutcome.noContent
    else HttpOutcome.ok requested

/-- C3 counterexample.  The pre-first-refresh snapshot is the plain empty
array — the very same value a successful refresh cycle with zero collected
records publishes (with or without sorting) — and the read interface
answers `204 No Content` for both, so no observation through the public
read interface distinguishes "not yet populated" from "populated but
empty". -/
theorem claim_C3_counterexample :
    initialCachedLatencies = (setLatencyCache false []).cachedLatencies ∧
    initialCachedLatencies = (setLatencyCache true []).cachedLatencies ∧
    latencyRequestOutcome false initialCachedLatencies [] = HttpOutcome.noContent ∧
    latencyRequestOutcome false (setLatencyCache false []).cachedLatencies [] =
      HttpOutcome.noContent := by
  refine ⟨rfl, ?_, rfl, rfl⟩
  simp [setLatencyCache, initialCachedLatencies]

/-- C3 as amended: before the first successful refresh the snapshot is the
empty array, and the public read interface reports every empty snapshot —
initial or published — identically as `204 No Content`; there is no
distinct "not yet populated" state. -/
theorem claim_C3_amended (q : QueryObject) :
    initialCachedLatencies = [] ∧
    latencyRequestOutcome false [] q = HttpOutcome.noContent := ⟨rfl, rfl⟩

/-! ### Claim C6: the record framer -/

/-- The terminal tag `SLINFO  ` (`Buffer.from("SLINFO  ")`, 8 bytes, two
trailing spaces). -/
def SLEND : List Nat := [83, 76, 73, 78, 70, 79, 32, 32]

/-- The framer state of one `SeedlinkInfoSocket`: the pending byte buffer,
the list of byte sequences handed to the record parser so far (the code
pushes `new mSEEDRecord(this.buffer.slice(8)).data`; the third-party parse
is a pure function of its argument bytes and is applied downstream, so the
framer-level payload chunks recorded here are those argument bytes
`this.buffer.slice(8)`), and whether `finish(null)` has run. -/
structure FramerState where
  buffer : List Nat
  records : List (List Nat)
  done : Bool
deriving DecidableEq

/-- The `while(this.buffer.length >= 520)` loop of
`SeedlinkInfoSocket.prototype.handleData`: while at least one full record
is buffered, push the parser input `this.buffer.slice(8)` (offset 8 to the
**end** of the buffer, not to 520), then — if the first 8 bytes equal the
terminal tag — stop with `finish(null)`, otherwise slice the consumed 520
bytes off and continue.  `fuel` is an upper bound on the remaining
iterations. -/
def consumeGo : Nat → List Nat → List (List Nat) → FramerState
  | 0, buffer, records => { buffer := buffer, records := records, done := false }
  | fuel + 1, buffer, records =>
    if 520 ≤ buffer.length then
      let records2 := records ++ [buffer.drop 8]
      if buffer.take 8 = SLEND then
        { buffer := buffer, records := records2, done := true }
      else consumeGo fuel (buffer.drop 520) records2
    else { buffer := buffer, records := records, done := false }

/-- The loop entry: `buffer.length` bounds the number of iterations (each
one removes 520 bytes), so it is enough fuel; the zero-fuel base case is
reached only on the empty buffer, where it coincides with the loop's
normal exit.  The fuel keeps the recursion structural, so concrete runs
reduce. -/
def consumeLoop (buffer : List Nat) (records : List (List Nat)) : FramerState :=
  consumeGo buffer.length buffer records

/-- One `data` event: concatenate the chunk onto the buffer and run the
consume loop.  After `finish(null)` the socket has been destroyed, so a
completed state ignores further chunks. -/
def handleData (s : FramerState) (data : List Nat) : FramerState :=
  if s.done then s
  else consumeLoop (s.buffer ++ data) s.records

/-- The fresh state of a `SeedlinkInfoSocket`: empty buffer
(`Buffer.allocUnsafe(0)`), no records. -/
def initFramer : FramerState :=
  { buffer := [], records := [], done := false }

/-- Feeding one connection's chunks in order. -/
def runChunks (chunks : List (List Nat)) : FramerState :=
  chunks.foldl handleData initFramer

lemma consumeGo_small (fuel : Nat) {buffer : List Nat} (h : buffer.length < 520)
    (records : List (List Nat)) :
    consumeGo fuel buffer records =
      { buffer := buffer, records := records, done := false } := by
  cases fuel with
  | zero => rfl
  | succ f =>
    unfold consumeGo
    rw [if_neg (by omega)]

lemma consumeLoop_small {buffer : List Nat} (h : buffer.length < 520)
    (records : List (List Nat)) :
    consumeLoop buffer records = { buffer := buffer, records := records, done := false } :=
  consumeGo_small buffer.length h records

lemma consumeGo_terminal {fuel : Nat} {buffer : List Nat} (h : 520 ≤ buffer.length)
    (hf : 1 ≤ fuel) (ht : buffer.take 8 = SLEND) (records : List (List Nat)) :
    consumeGo fuel buffer records =
      { buffer := buffer, records := records ++ [buffer.drop 8], done := true } := by
  cases fuel with
  | zero => omega
  | succ f =>
    unfold consumeGo
    rw [if_pos h, if_pos ht]

lemma consumeLoop_terminal {buffer : List Nat} (h : 520 ≤ buffer.length)
    (ht : buffer.take 8 = SLEND) (records : List (List Nat)) :
    consumeLoop buffer records =
      { buffer := buffer, records := records ++ [buffer.drop 8], done := true } :=
  consumeGo_terminal h (by omega) ht records

lemma consumeGo_succ_step {f : Nat} {buffer : List Nat} (h : 520 ≤ buffer.length)
    (ht : buffer.take 8 ≠ SLEND) (records : List (List Nat)) :
    consumeGo (f + 1) buffer records =
      consumeGo f (buffer.drop 520) (records ++ [buffer.drop 8]) := by
  conv_lhs => unfold consumeGo
  rw [if_pos h, if_neg ht]

lemma consumeGo_congr : ∀ (f1 : Nat) {buffer : List Nat} (f2 : Nat)
    (records : List (List Nat)), buffer.length ≤ f1 → buffer.length ≤ f2 →
    consumeGo f1 buffer records = consumeGo f2 buffer records := by
  intro f1
  induction f1 with
  | zero =>
    intro buffer f2 records h1 h2
    rw [consumeGo_small 0 (by omega), consumeGo_small f2 (by omega)]
  | succ f ih =>
    intro buffer f2 records h1 h2
    by_cases hblen : 520 ≤ buffer.length
    · cases f2 with
      | zero => omega
      | succ g =>
        by_cases hterm : buffer.take 8 = SLEND
        · rw [consumeGo_terminal hblen (by omega) hterm,
            consumeGo_terminal hblen (by omega) hterm]
        · rw [consumeGo_succ_step hblen hterm, consumeGo_succ_step hblen hterm]
          have h1x : (buffer.drop 520).length ≤ f := by
            rw [List.length_drop]
            omega
          have h2x : (buffer.drop 520).length ≤ g := by
            rw [List.length_drop]
            omega
          exact ih g (records ++ [buffer.drop 8]) h1x h2x
    · rw [consumeGo_small _ (by omega), consumeGo_small _ (by omega)]

lemma consumeLoop_step {buffer : List Nat} (h : 520 ≤ buffer.length)
    (ht : buffer.take 8 ≠ SLEND) (records : List (List Nat)) :
    consumeLoop buffer records =
      consumeLoop (buffer.drop 520) (records ++ [buffer.drop 8]) := by
  unfold consumeLoop
  cases hn : buffer.length with
  | zero => omega
  | succ f =>
    rw [consumeGo_succ_step h ht]
    have h1x : (buffer.drop 520).length ≤ f := by
      rw [List.length_drop]
      omega
    exact consumeGo_congr f (buffer.drop 520).length
      (records ++ [buffer.drop 8]) h1x (le_refl _)

lemma handleData_init (d : List Nat) :
    handleData initFramer d = consumeLoop d [] := rfl

lemma handleData_fresh (buf : List Nat) (recs : List (List Nat)) (d : List Nat) :
    handleData { buffer := buf, records := recs, done := false } d =
      consumeLoop (buf ++ d) recs := rfl

/-- A non-terminal 520-byte record: tag of eight zero bytes, payload of
512 bytes `1`. -/
def recordNonTerminal : List Nat := List.replicate 8 0 ++ List.replicate 512 1

/-- A terminal 520-byte record: the terminal tag, payload of 512 bytes
`2`. -/
def recordTerminal : List Nat := SLEND ++ List.replicate 512 2

lemma recordNonTerminal_take : recordNonTerminal.take 8 = List.replicate 8 0 := by
  unfold recordNonTerminal
  rw [List.take_left' (by simp)]

lemma recordNonTerminal_drop : recordNonTerminal.drop 8 = List.replicate 512 1 := by
  unfold recordNonTerminal
  rw [List.drop_left' (by simp)]

lemma recordNonTerminal_length : recordNonTerminal.length = 520 := by
  unfold recordNonTerminal
  rw [List.length_append, List.length_replicate, List.length_replicate]

lemma SLEND_length : SLEND.length = 8 := rfl

lemma recordTerminal_take : recordTerminal.take 8 = SLEND := by
  unfold recordTerminal
  rw [List.take_left' SLEND_length]

lemma recordTerminal_drop : recordTerminal.drop 8 = List.replicate 512 2 := by
  unfold recordTerminal
  rw [List.drop_left' SLEND_length]

lemma recordTerminal_length : recordTerminal.length = 520 := by
  unfold recordTerminal
  rw [List.length_append, SLEND_length, List.length_replicate]

lemma replicate8_ne_SLEND : List.replicate 8 (0 : Nat) ≠ SLEND := by
  decide

/-- C6 counterexample.  Deliver a non-terminal record followed by a
terminal record: in one 1040-byte chunk, the loop's first push is
`buffer.slice(8)` of the **whole** buffer — the non-terminal record's
trailing 512 bytes with the entire terminal record still appended (1032
bytes, not the record's trailing 512); split at the record boundary, the
first push is exactly the 512 payload bytes.  The two payload-chunk lists
differ, refuting both the split-invariance of the payload list and
"contributes exactly its trailing 512 bytes". -/
theorem claim_C6_counterexample :
    (runChunks [recordNonTerminal ++ recordTerminal]).records =
      [List.replicate 512 1 ++ recordTerminal, List.replicate 512 2] ∧
    (runChunks [recordNonTerminal, recordTerminal]).records =
      [List.replicate 512 1, List.replicate 512 2] ∧
    (runChunks [recordNonTerminal ++ recordTerminal]).records ≠
      (runChunks [recordNonTerminal, recordTerminal]).records := by
  have hbatch : (runChunks [recordNonTerminal ++ recordTerminal]).records =
      [List.replicate 512 1 ++ recordTerminal, List.replicate 512 2] := by
    show (handleData initFramer (recordNonTerminal ++ recordTerminal)).records = _
    rw [handleData_init]
    rw [consumeLoop_step
      (by rw [List.length_append, recordNonTerminal_length, recordTerminal_length]; omega)
      (by rw [List.take_append_of_le_length (by rw [recordNonTerminal_length]; omega),
        recordNonTerminal_take]; exact replicate8_ne_SLEND)]
    rw [show (recordNonTerminal ++ recordTerminal).drop 520 = recordTerminal from
      List.drop_left' recordNonTerminal_length]
    rw [show (recordNonTerminal ++ recordTerminal).drop 8 =
        List.replicate 512 1 ++ recordTerminal from by
      rw [List.drop_append_of_le_length (by rw [recordNonTerminal_length]; omega),
        recordNonTerminal_drop]]
    rw [consumeLoop_terminal (by rw [recordTerminal_length]) recordTerminal_take]
    rw [recordTerminal_drop]
    rfl
  have hsplit : (runChunks [recordNonTerminal, recordTerminal]).records =
      [List.replicate 512 1, List.replicate 512 2] := by
    show (handleData (handleData initFramer recordNonTerminal) recordTerminal).records = _
    rw [handleData_init]
    rw [consumeLoop_step (by rw [recordNonTerminal_length])
      (by rw [recordNonTerminal_take]; exact replicate8_ne_SLEND)]
    rw [recordNonTerminal_drop,
      List.drop_eq_nil_of_le (by rw [recordNonTerminal_length]),
      consumeLoop_small (by decide)]
    rw [handleData_fresh]
    simp only [List.nil_append]
    rw [consumeLoop_terminal (by rw [recordTerminal_length]) recordTerminal_take]
    rw [recordTerminal_drop]
    rfl
  refine ⟨hbatch, hsplit, ?_⟩
  rw [hbatch, hsplit]
  intro hcontra
  have h1 : List.replicate 512 (1 : Nat) ++ recordTerminal = List.replicate 512 1 := by
    injection hcontra
  have h2 : recordTerminal = [] := List.append_right_eq_self.mp h1
  have h3 := congrArg List.length h2
  rw [recordTerminal_length] at h3
  exact absurd h3 (by decide)

/-- C6 as amended: a single 520-byte chunk equal to a terminal record
yields exactly one payload chunk — there its trailing 512 bytes — and the
complete signal, and splitting those bytes 3-then-517 gives the identical
final state; in general a consumed record's payload chunk is the buffer
from offset 8 to its **end**, which equals the record's trailing 512 bytes
exactly when the record is the only buffered data (third conjunct), but
not when later bytes are already buffered (see the counterexample), so
only the outcome — not the payload-chunk contents — is independent of the
chunking. -/
theorem claim_C6_amended :
    runChunks [recordTerminal] =
      { buffer := recordTerminal, records := [List.replicate 512 2], done := true } ∧
    runChunks [recordTerminal.take 3, recordTerminal.drop 3] = runChunks [recordTerminal] ∧
    (∀ chunk : List Nat, chunk.length = 520 →
      (handleData initFramer chunk).records = [chunk.drop 8] ∧
      (handleData initFramer chunk).done = (chunk.take 8 = SLEND : Bool)) := by
  have hone : runChunks [recordTerminal] =
      { buffer := recordTerminal, records := [List.replicate 512 2], done := true } := by
    show handleData initFramer recordTerminal = _
    rw [handleData_init]
    rw [consumeLoop_terminal (by rw [recordTerminal_length]) recordTerminal_take]
    rw [recordTerminal_drop]
    rfl
  refine ⟨hone, ?_, ?_⟩
  · show handleData (handleData initFramer (recordTerminal.take 3))
      (recordTerminal.drop 3) = _
    rw [handleData_init]
    rw [consumeLoop_small (by rw [List.length_take, recordTerminal_length]; omega)]
    rw [handleData_fresh]
    rw [List.take_append_drop]
    show consumeLoop recordTerminal [] = handleData initFramer recordTerminal
    rw [handleData_init]
  · intro chunk hlen
    rw [handleData_init]
    by_cases hterm : chunk.take 8 = SLEND
    · rw [consumeLoop_terminal (by omega) hterm]
      exact ⟨rfl, by rw [hterm]; simp⟩
    · rw [consumeLoop_step (by omega) hterm,
        List.drop_eq_nil_of_le (by omega), consumeLoop_small (by decide)]
      refine ⟨rfl, ?_⟩
      show false = (chunk.take 8 = SLEND : Bool)
      simp [hterm]

/-- Witness for the universally quantified conjunct of the amended C6, at
the concrete terminal record. -/
theorem claim_C6_amended_witness :
    recordTerminal.length = 520 ∧
    (handleData initFramer recordTerminal).records = [recordTerminal.drop 8] ∧
    (handleData initFramer recordTerminal).done = (recordTerminal.take 8 = SLEND : Bool) := by
  refine ⟨recordTerminal_length, ?_⟩
  exact claim_C6_amended.2.2 recordTerminal recordTerminal_length

/-! ### Claim C7: no time bound on a poll -/

/-- The events a `SeedlinkInfoSocket` subscribes to (`lib` lines 16-17):
only `"error"` and `"data"`.  No `"timeout"` handler exists, no
`socket.setTimeout` or connect timer is ever set (the `initialized`
timestamp stored in the constructor is never read), so these are the only
inputs that can drive the poll. -/
inductive SockEvent where
  | dataEvt : List Nat → SockEvent
  | errorEvt : SockEvent
deriving DecidableEq

/-- The state of one poll: the framer plus whether `finish(error)` ran. -/
structure PollState where
  framer : FramerState
  errored : Bool
deriving DecidableEq

/-- The poll's callback has fired — via `finish(null)` after consuming the
terminal record, or via `finish(error)` from the `"error"` handler.  Only
then does `refreshCacheFull`'s `next()` advance to the next endpoint. -/
def pollCompleted (s : PollState) : Bool := s.framer.done || s.errored

/-- One socket event.  A completed poll's socket is destroyed (or, after
an `"error"`, closed by the runtime), so later events are ignored. -/
def pollStep (s : PollState) (e : SockEvent) : PollState :=
  if pollCompleted s then s
  else
    match e with
    | SockEvent.errorEvt => { s with errored := true }
    | SockEvent.dataEvt d => { s with framer := handleData s.framer d }

/-- A poll right after `socket.connect` succeeded and `INFO STREAMS` was
written. -/
def initPollState : PollState := { framer := initFramer, errored := false }

/-- Running one poll over the endpoint's event trace. -/
def pollRun (events : List SockEvent) : PollState :=
  events.foldl pollStep initPollState

lemma pollFold_no_error {events : List SockEvent}
    (h : SockEvent.errorEvt ∉ events) :
    ∀ s : PollState, s.errored = false → (events.foldl pollStep s).errored = false := by
  induction events with
  | nil => exact fun s hs => hs
  | cons e es ih =>
    intro s hs
    have he : e ≠ SockEvent.errorEvt := fun hh => h (hh ▸ List.mem_cons_self e es)
    have hes : SockEvent.errorEvt ∉ es := fun hh => h (List.mem_cons_of_mem e hh)
    show (es.foldl pollStep (pollStep s e)).errored = false
    refine ih hes _ ?_
    unfold pollStep
    split
    · exact hs
    · cases e with
      | errorEvt => exact absurd rfl he
      | dataEvt d => simpa using hs

/-- C7 counterexample.  An endpoint that accepts the connection and then
stays silent — or sends a few bytes and stops — generates no `"error"`
event and no terminal record, and the poll never completes: after the
empty event trace, and after a trace of one short data chunk, the callback
has not fired.  No timer exists to bound either phase, so nothing in the
claim's sense prevents the cycle from being delayed forever. -/
theorem claim_C7_counterexample :
    pollCompleted (pollRun []) = false ∧
    pollCompleted (pollRun [SockEvent.dataEvt (List.replicate 8 0)]) = false := by
  constructor
  · rfl
  · show pollCompleted (pollStep initPollState (SockEvent.dataEvt (List.replicate 8 0))) = false
    unfold pollStep
    rw [if_neg (by decide : ¬ pollCompleted initPollState = true)]
    show ((handleData initFramer (List.replicate 8 0)).done || false) = false
    rw [handleData_init, consumeLoop_small (by decide)]
    rfl

/-- C7 as amended: neither the connect nor the read phase of a poll is
time-bounded — `SeedlinkInfoSocket` registers only `data` and `error`
handlers and sets no timeout — so on any event trace free of transport
errors the poll has completed exactly when the framer has consumed a
terminal record; an endpoint that accepts and never sends one therefore
delays the completion of the refresh cycle (and the scheduling of the next
one) indefinitely. -/
theorem claim_C7_amended (events : List SockEvent)
    (h : SockEvent.errorEvt ∉ events) :
    pollCompleted (pollRun events) = (pollRun events).framer.done := by
  have herr : (pollRun events).errored = false :=
    pollFold_no_error h initPollState rfl
  simp [pollCompleted, herr]

/-- Witness for the amended C7 on a concrete error-free trace. -/
theorem claim_C7_amended_witness :
    (SockEvent.errorEvt ∉ [SockEvent.dataEvt []]) ∧
    pollCompleted (pollRun [SockEvent.dataEvt []]) =
      (pollRun [SockEvent.dataEvt []]).framer.done := by
  refine ⟨by decide, ?_⟩
  exact claim_C7_amended [SockEvent.dataEvt []] (by decide)

end SeedlinkProxy
